import Mathlib

/-!
# Verification of the wind-field compute core (src/main.cpp)

Shallow embedding of the GLSL compute shader embedded in `src/main.cpp`
(functions `deg2rad`, `rotateVec`, `isInCircle`, `isInRect`, `isInSector`,
`getShapeWindVec` and the shader `main`) together with the CPU-side data
model (`WindShape`, `WindFieldParams`).  Floating-point arithmetic is
idealised over `ℝ`; the shader's literal `3.1415926535` is kept verbatim.
GLSL's two-argument `atan(y, x)` is embedded as `Complex.arg ⟨x, y⟩`,
whose range `(-π, π]` matches the GLSL contract.
-/

set_option maxHeartbeats 1000000

open Real

/-- 2D vector, the embedding of GLSL `vec2` / `glm::vec2`. -/
@[ext] structure Vec2 where
  x : ℝ
  y : ℝ

/-- 4-component vector, the embedding of GLSL `vec4` (one texel of the RT). -/
@[ext] structure Vec4 where
  x : ℝ
  y : ℝ
  z : ℝ
  w : ℝ

instance : Zero Vec2 := ⟨⟨0, 0⟩⟩

instance : Add Vec2 := ⟨fun a b => ⟨a.x + b.x, a.y + b.y⟩⟩

instance : Sub Vec2 := ⟨fun a b => ⟨a.x - b.x, a.y - b.y⟩⟩

/-- Componentwise scalar multiplication `vec2 * float`, as GLSL does it. -/
instance : HMul Vec2 ℝ Vec2 := ⟨fun v k => ⟨v.x * k, v.y * k⟩⟩

theorem Vec2.zero_def : (0 : Vec2) = ⟨0, 0⟩ := rfl

theorem Vec2.add_def (a b : Vec2) : a + b = ⟨a.x + b.x, a.y + b.y⟩ := rfl

theorem Vec2.sub_def (a b : Vec2) : a - b = ⟨a.x - b.x, a.y - b.y⟩ := rfl

theorem Vec2.hmul_def (v : Vec2) (k : ℝ) : v * k = ⟨v.x * k, v.y * k⟩ := rfl

instance : AddCommMonoid Vec2 where
  add_assoc a b c := Vec2.ext (add_assoc a.x b.x c.x) (add_assoc a.y b.y c.y)
  zero_add a := Vec2.ext (zero_add a.x) (zero_add a.y)
  add_zero a := Vec2.ext (add_zero a.x) (add_zero a.y)
  add_comm a b := Vec2.ext (add_comm a.x b.x) (add_comm a.y b.y)
  nsmul := nsmulRec

/-- GLSL `length`: euclidean norm of a `vec2`. -/
noncomputable def Vec2.length (v : Vec2) : ℝ :=
  Real.sqrt (v.x ^ 2 + v.y ^ 2)

/-- One emitter shape, the embedding of struct `WindShape` of `src/main.cpp`
(the two explicit alignment padding fields carry no data and are dropped). -/
structure WindShape where
  type : Int
  pos : Vec2
  size : Vec2
  rotation : ℝ
  angleRange : ℝ
  windDir : Vec2
  windSpeed : ℝ

/-- The UBO aggregate, embedding of struct `WindFieldParams`.  The source
holds a fixed array `WindShape shapes[128]`; it is embedded as a total
function on indices (the shader never indexes past `shapeCount`, which the
layout contract bounds by 128). -/
structure WindFieldParams where
  shapeCount : Int
  rtWidth : Int
  rtHeight : Int
  shapes : ℕ → WindShape

/-- Shader `deg2rad`, with the source's literal for π kept verbatim. -/
noncomputable def deg2rad (deg : ℝ) : ℝ :=
  deg * 3.1415926535 / 180.0

/-- Shader `rotateVec`: counterclockwise rotation about the origin. -/
noncomputable def rotateVec (v : Vec2) (rad : ℝ) : Vec2 :=
  ⟨v.x * Real.cos rad - v.y * Real.sin rad,
   v.x * Real.sin rad + v.y * Real.cos rad⟩

/-- GLSL two-argument `atan(y, x)`: the angle of the point `(x, y)`,
in `(-π, π]`, embedded as the complex argument. -/
noncomputable def atan2 (y x : ℝ) : ℝ :=
  Complex.arg ⟨x, y⟩

/-- Shader `isInCircle`: distance to the centre at most `size.x`. -/
noncomputable def isInCircle (pixelPos : Vec2) (shape : WindShape) : Bool :=
  let r := shape.size.x
  let dist := (pixelPos - shape.pos).length
  decide (dist ≤ r)

/-- Shader `isInRect`: rotate the offset into the rectangle's local frame
and compare against the half extents. -/
noncomputable def isInRect (pixelPos : Vec2) (shape : WindShape) : Bool :=
  let halfSize := shape.size * (0.5 : ℝ)
  let delta := pixelPos - shape.pos
  let rad := deg2rad (-shape.rotation)
  let delta2 := rotateVec delta rad
  decide (|delta2.x| ≤ halfSize.x ∧ |delta2.y| ≤ halfSize.y)

/-- The angle computation inside shader `isInSector`: `atan` in degrees
(using the source's π literal), shifted by 360 when negative. -/
noncomputable def pixelAngle (delta : Vec2) : ℝ :=
  let angle := atan2 delta.y delta.x * 180.0 / 3.1415926535
  if angle < 0.0 then angle + 360.0 else angle

/-- Shader `isInSector`: radius test, then angular test with wraparound
past 360°. -/
noncomputable def isInSector (pixelPos : Vec2) (shape : WindShape) : Bool :=
  let r := shape.size.x
  let delta := pixelPos - shape.pos
  let dist := delta.length
  if dist > r then false
  else
    let angle := pixelAngle delta
    let startAngle := shape.rotation
    let endAngle := startAngle + shape.angleRange
    if endAngle > 360.0 then decide (angle ≥ startAngle ∨ angle ≤ endAngle - 360.0)
    else decide (angle ≥ startAngle ∧ angle ≤ endAngle)

/-- Shader `getShapeWindVec`: the contribution of a shape to a pixel,
`windDir * windSpeed`, independent of the pixel position. -/
noncomputable def getShapeWindVec (pixelPos : Vec2) (shape : WindShape) : Vec2 :=
  let baseVec := shape.windDir * shape.windSpeed
  baseVec

/-- The `switch (shape.type)` of the shader main loop: dispatch to the
shape-specific containment test, `false` on any unknown tag. -/
noncomputable def shapeContains (pixelPos : Vec2) (shape : WindShape) : Bool :=
  if shape.type = 0 then isInCircle pixelPos shape
  else if shape.type = 1 then isInRect pixelPos shape
  else if shape.type = 2 then isInSector pixelPos shape
  else false

/-- The accumulation loop of the shader `main`: starting from `vec2(0)`,
add `getShapeWindVec` for every contained shape, in list order. -/
noncomputable def evaluate (pixelPos : Vec2) (shapes : List WindShape) : Vec2 :=
  shapes.foldl
    (fun acc s => if shapeContains pixelPos s then acc + getShapeWindVec pixelPos s else acc)
    0

/-- The shape sequence the shader loop reads: `shapes[0] .. shapes[shapeCount-1]`
(no iteration when `shapeCount ≤ 0`, as for the C `for` loop). -/
def shapeList (params : WindFieldParams) : List WindShape :=
  (List.range params.shapeCount.toNat).map params.shapes

/-- One shader invocation of `main`: invocation id `id : ℕ × ℕ` (GLSL global
invocation ids are non-negative), bounds check against the RT extent, then
`imageStore` of `vec4(totalWindVec, 0, 0)` at the invocation's own texel.
The RT is embedded as a function from texel coordinates to texels; the
result is the RT after the invocation. -/
noncomputable def shaderMain (params : WindFieldParams) (grid : ℕ × ℕ → Vec4)
    (id : ℕ × ℕ) : ℕ × ℕ → Vec4 :=
  let pixelPos : Vec2 := ⟨(id.1 : ℝ), (id.2 : ℝ)⟩
  if (id.1 : ℤ) ≥ params.rtWidth ∨ (id.2 : ℤ) ≥ params.rtHeight then grid
  else
    let totalWindVec := evaluate pixelPos (shapeList params)
    fun c => if c = id then ⟨totalWindVec.x, totalWindVec.y, 0, 0⟩ else grid c

/-- Modelled from the spec: the repository's `src/main.cpp` has no guarded
normalize (it calls `glm::normalize` on hard-coded non-zero inputs only);
§4.1 of the spec requires normalization "guarded to return zero vector if
input magnitude is below an epsilon (e.g. 1e-6)".  This definition follows
those words over `ℝ`, where the NaN of a float zero-division is replaced by
the guarded zero-vector result being well-defined. -/
noncomputable def normalizeGuarded (v : Vec2) : Vec2 :=
  if v.length < 1e-6 then ⟨0, 0⟩
  else ⟨v.x / v.length, v.y / v.length⟩

/-- Modelled from the spec: error outcome of `ShapeSet.add` (§4.1, §7);
`src/main.cpp` has only the raw fixed array `WindShape shapes[128]` with a
separately tracked count and no add operation. -/
inductive AddError where
  | CapacityExceeded

/-- Modelled from the spec: `ShapeSet` (§3), an ordered sequence of shapes
bounded by the 128 capacity of the transfer layout; the bound is a structure
invariant validated at every mutation (§9). -/
structure ShapeSet where
  shapes : List WindShape
  size_le : shapes.length ≤ 128

/-- Modelled from the spec: `add(shape) -> Result` (§4.1) — fails with
`CapacityExceeded` when the set already holds 128 shapes, otherwise appends
the shape with its `windDirection` normalized by the guarded normalize.
(The spec leaves the wrap rule for `angleRangeDegrees` outside `[0,360)`
open, §9, so `angleRange` is stored unchanged.) -/
noncomputable def ShapeSet.add (s : ShapeSet) (shape : WindShape) :
    Except AddError ShapeSet :=
  if h : s.shapes.length ≥ 128 then .error .CapacityExceeded
  else
    .ok ⟨s.shapes ++ [{ shape with windDir := normalizeGuarded shape.windDir }],
         by simpa using Nat.succ_le_of_lt (lt_of_not_ge h)⟩

/-- The spec's words for rectangle containment (§4.2): rotate the offset by
`-rotationDegrees` into the local frame, compare against half the extents. -/
noncomputable def rectSpecContained (p : Vec2) (s : WindShape) : Prop :=
  let delta := rotateVec (p - s.pos) (deg2rad (-s.rotation))
  |delta.x| ≤ s.size.x / 2 ∧ |delta.y| ≤ s.size.y / 2

/-- The spec's words for the angular part of sector containment (§4.2), on a
given normalized angle: with `end = start + range`, wraparound past 360°
means `angle ≥ start ∨ angle ≤ end - 360`, else `start ≤ angle ≤ end`. -/
def sectorSpecContained (angle startAngle range : ℝ) : Prop :=
  let endAngle := startAngle + range
  if endAngle > 360 then angle ≥ startAngle ∨ angle ≤ endAngle - 360
  else startAngle ≤ angle ∧ angle ≤ endAngle

/-- Concrete circle of the spec's §8 scenario: centre (5,5), radius 2,
direction (1,0), speed 3. -/
def circEx : WindShape :=
  ⟨0, ⟨5, 5⟩, ⟨2, 0⟩, 0, 0, ⟨1, 0⟩, 3⟩

/-- Concrete rectangle: type tag 1, centre (3,2), extents 4×2, rotation 45°. -/
def rectEx : WindShape :=
  ⟨1, ⟨3, 2⟩, ⟨4, 2⟩, 45, 0, ⟨1, 0⟩, 1⟩

/-- Concrete sector of the wraparound scenario: start 350°, range 20°,
centre the origin, radius 1. -/
def sectorEx : WindShape :=
  ⟨2, ⟨0, 0⟩, ⟨1, 0⟩, 350, 20, ⟨1, 0⟩, 1⟩

/-- A point on the unit circle at polar angle 355° (= −5° = −π/36 rad). -/
noncomputable def pt355 : Vec2 :=
  ⟨Real.cos (-(Real.pi / 36)), Real.sin (-(Real.pi / 36))⟩

/-- A point on the unit circle at polar angle 200° (= −160° = −8π/9 rad). -/
noncomputable def pt200 : Vec2 :=
  ⟨Real.cos (-(8 * Real.pi / 9)), Real.sin (-(8 * Real.pi / 9))⟩

/-- A placeholder shape used to build concrete witnesses. -/
def defShape : WindShape :=
  ⟨0, ⟨0, 0⟩, ⟨0, 0⟩, 0, 0, ⟨0, 0⟩, 0⟩

/-- A shape with an unknown type tag. -/
def unknownShape : WindShape :=
  ⟨7, ⟨0, 0⟩, ⟨9, 9⟩, 0, 0, ⟨1, 0⟩, 5⟩

/-- A ShapeSet already at the 128-shape capacity. -/
def fullSet : ShapeSet :=
  ⟨List.replicate 128 defShape, by simp⟩

/-- Concrete dispatch parameters: a 4×4 RT with no shapes. -/
def paramsEx : WindFieldParams :=
  ⟨0, 4, 4, fun _ => defShape⟩

theorem evaluate_eq_sum (p : Vec2) (l : List WindShape) :
    evaluate p l =
      ((l.filter fun s => shapeContains p s).map fun s => s.windDir * s.windSpeed).sum := by
  have key : ∀ (t : List WindShape) (acc : Vec2),
      t.foldl (fun a s => if shapeContains p s then a + getShapeWindVec p s else a) acc
        = acc + ((t.filter fun s => shapeContains p s).map fun s => s.windDir * s.windSpeed).sum := by
    intro t
    induction t with
    | nil => intro acc; simp
    | cons s t ih =>
      intro acc
      by_cases h : shapeContains p s = true
      · rw [List.foldl_cons, if_pos h, ih]
        simp [List.filter_cons, h, getShapeWindVec, add_assoc]
      · rw [List.foldl_cons, if_neg h, ih]
        simp [List.filter_cons, h]
  rw [evaluate, key, zero_add]

theorem contains_circEx_center : shapeContains ⟨5, 5⟩ circEx = true := by
  simp only [shapeContains, circEx, isInCircle]
  norm_num [Vec2.sub_def, Vec2.length, Real.sqrt_zero, decide_eq_true_eq]

/-- C1: the evaluated wind vector is the sum, over exactly the shapes whose
containment predicate holds at the cell, of `windDirection * windSpeed`,
starting from `(0,0)`; the contribution is position-independent (no distance
falloff), and a cell inside two shapes A and B gets the exact vector sum of
their two contributions, with no clamping or averaging. -/
theorem wind_accumulation_additive :
    (∀ (p : Vec2) (shapes : List WindShape),
        evaluate p shapes =
          ((shapes.filter fun s => shapeContains p s).map
            fun s => s.windDir * s.windSpeed).sum) ∧
    (∀ (p q : Vec2) (s : WindShape), getShapeWindVec p s = getShapeWindVec q s) ∧
    (∀ (p : Vec2) (A B : WindShape), shapeContains p A = true → shapeContains p B = true →
        evaluate p [A, B] = A.windDir * A.windSpeed + B.windDir * B.windSpeed) := by
  refine ⟨evaluate_eq_sum, fun p q s => rfl, ?_⟩
  intro p A B hA hB
  rw [evaluate_eq_sum]
  simp [List.filter_cons, hA, hB]

theorem wind_accumulation_additive_witness :
    evaluate ⟨5, 5⟩ [circEx, circEx] =
      circEx.windDir * circEx.windSpeed + circEx.windDir * circEx.windSpeed :=
  wind_accumulation_additive.2.2 ⟨5, 5⟩ circEx circEx
    contains_circEx_center contains_circEx_center

/-- C2: for a single Circle shape, a cell within distance `size.x` of the
centre evaluates to exactly `windDir * windSpeed`, a cell strictly farther
evaluates to `(0,0)`, and the circle containment test is
`distance(cell, centre) ≤ size.x`, boundary included. -/
theorem circle_single_shape_field :
    ∀ (s : WindShape) (p : Vec2), s.type = 0 →
      (isInCircle p s = true ↔ (p - s.pos).length ≤ s.size.x) ∧
      ((p - s.pos).length ≤ s.size.x → evaluate p [s] = s.windDir * s.windSpeed) ∧
      ((p - s.pos).length > s.size.x → evaluate p [s] = 0) := by
  intro s p h0
  have hc : shapeContains p s = isInCircle p s := by simp [shapeContains, h0]
  refine ⟨by simp [isInCircle], ?_, ?_⟩
  · intro hd
    have ht : isInCircle p s = true := by simp [isInCircle, hd]
    simp [evaluate, hc, ht, getShapeWindVec]
  · intro hd
    have hf : isInCircle p s = false := by simp [isInCircle, not_le.mpr hd]
    simp [evaluate, hc, hf]

theorem circle_single_shape_field_witness :
    evaluate ⟨6, 5⟩ [circEx] = circEx.windDir * circEx.windSpeed :=
  (circle_single_shape_field circEx ⟨6, 5⟩ rfl).2.1 (by
    simp only [circEx, Vec2.sub_def, Vec2.length]
    norm_num [Real.sqrt_one])

/-- C7: a shape whose type tag is none of the known variants (0 circle,
1 rectangle, 2 sector) never tests as contained, and contributes nothing to
the accumulated wind of any cell; no error outcome exists in the shader. -/
theorem unknown_kind_silent_noop :
    ∀ (p : Vec2) (s : WindShape), s.type ≠ 0 → s.type ≠ 1 → s.type ≠ 2 →
      shapeContains p s = false ∧
      ∀ (l₁ l₂ : List WindShape), evaluate p (l₁ ++ s :: l₂) = evaluate p (l₁ ++ l₂) := by
  intro p s h0 h1 h2
  have hc : shapeContains p s = false := by simp [shapeContains, h0, h1, h2]
  refine ⟨hc, fun l₁ l₂ => ?_⟩
  simp [evaluate, List.foldl_append, hc]

theorem unknown_kind_silent_noop_witness :
    shapeContains ⟨0, 0⟩ unknownShape = false ∧
      evaluate ⟨0, 0⟩ [unknownShape] = evaluate ⟨0, 0⟩ [] := by
  have h := unknown_kind_silent_noop ⟨0, 0⟩ unknownShape
    (by decide) (by decide) (by decide)
  exact ⟨h.1, h.2 [] []⟩

/-- C8: evaluating a cell against any permutation of the shape list yields
the same accumulated wind vector as the original order. -/
theorem evaluation_order_invariant :
    ∀ (p : Vec2) (l₁ l₂ : List WindShape), l₁.Perm l₂ → evaluate p l₁ = evaluate p l₂ := by
  intro p l₁ l₂ h
  rw [evaluate_eq_sum p l₁, evaluate_eq_sum p l₂]
  exact List.Perm.sum_eq ((h.filter _).map _)

theorem evaluation_order_invariant_witness :
    evaluate ⟨0, 0⟩ [circEx, rectEx] = evaluate ⟨0, 0⟩ [rectEx, circEx] :=
  evaluation_order_invariant ⟨0, 0⟩ [circEx, rectEx] [rectEx, circEx]
    (List.Perm.swap rectEx circEx [])

/-- C4: rectangle containment rotates the offset `cell - position` by
`-rotationDegrees` (degrees to radians) into the local frame and compares
against the half extents; consequently containment at rotation θ equals
containment of the inverse-rotated query point at rotation 0. -/
theorem rect_rotation_local_frame :
    (∀ (p : Vec2) (s : WindShape), isInRect p s = true ↔ rectSpecContained p s) ∧
    (∀ (p : Vec2) (s : WindShape), s.type = 1 → shapeContains p s = isInRect p s) ∧
    (∀ (p : Vec2) (s : WindShape) (θ : ℝ),
        isInRect p { s with rotation := θ } =
          isInRect (s.pos + rotateVec (p - s.pos) (deg2rad (-θ)))
            { s with rotation := 0 }) := by
  refine ⟨?_, ?_, ?_⟩
  · intro p s
    simp only [isInRect, rectSpecContained, Vec2.hmul_def, decide_eq_true_eq]
    norm_num [mul_one_div]
  · intro p s h1
    have h0 : s.type ≠ 0 := by rw [h1]; decide
    simp [shapeContains, h0, h1]
  · intro p s θ
    have hdelta : (s.pos + rotateVec (p - s.pos) (deg2rad (-θ))) - s.pos
        = rotateVec (p - s.pos) (deg2rad (-θ)) := by
      ext <;> simp [Vec2.add_def, Vec2.sub_def]
    have hzero : deg2rad (-(0 : ℝ)) = 0 := by simp [deg2rad]
    have hrot0 : ∀ v : Vec2, rotateVec v 0 = v := by
      intro v
      simp [rotateVec]
    simp only [isInRect, hdelta, hzero, hrot0]

theorem rect_rotation_local_frame_witness :
    shapeContains ⟨3, 2⟩ rectEx = isInRect ⟨3, 2⟩ rectEx :=
  rect_rotation_local_frame.2.1 ⟨3, 2⟩ rectEx rfl

/-- C5: adding a shape to a ShapeSet already holding 128 shapes fails with
`CapacityExceeded`, the set keeps its 128 shapes, every ShapeSet respects
the 128 bound, and a successful add grows the size by one while staying
within the bound. -/
theorem capacity_bound_enforced :
    (∀ (s : ShapeSet) (sh : WindShape), s.shapes.length = 128 →
        s.add sh = Except.error AddError.CapacityExceeded) ∧
    (∀ t : ShapeSet, t.shapes.length ≤ 128) ∧
    (∀ (s : ShapeSet) (sh : WindShape) (t : ShapeSet), s.add sh = Except.ok t →
        t.shapes.length = s.shapes.length + 1 ∧ t.shapes.length ≤ 128) := by
  refine ⟨?_, fun t => t.size_le, ?_⟩
  · intro s sh h
    simp [ShapeSet.add, h]
  · intro s sh t h
    by_cases hc : s.shapes.length ≥ 128
    · simp [ShapeSet.add, hc] at h
    · simp only [ShapeSet.add, dif_neg hc, Except.ok.injEq] at h
      refine ⟨?_, t.size_le⟩
      rw [← h]
      simp

theorem capacity_bound_enforced_witness :
    fullSet.add defShape = Except.error AddError.CapacityExceeded :=
  capacity_bound_enforced.1 fullSet defShape (by simp [fullSet])

/-- C6: the guarded normalize stores the zero vector whenever the input
direction's magnitude is below the 1e-6 epsilon (instead of producing the
NaN of a division by a vanishing norm), stores a unit vector otherwise, and
`ShapeSet.add` stores exactly the guarded-normalized direction. -/
theorem winddir_normalized_or_zero :
    (∀ v : Vec2, v.length < 1e-6 → normalizeGuarded v = ⟨0, 0⟩) ∧
    (∀ v : Vec2, ¬ v.length < 1e-6 → (normalizeGuarded v).length = 1) ∧
    (∀ (s : ShapeSet) (sh : WindShape) (t : ShapeSet), s.add sh = Except.ok t →
        t.shapes = s.shapes ++ [{ sh with windDir := normalizeGuarded sh.windDir }]) := by
  refine ⟨?_, ?_, ?_⟩
  · intro v h
    simp [normalizeGuarded, h]
  · intro v h
    have hL : (1e-6 : ℝ) ≤ v.length := not_lt.mp h
    have hpos : 0 < v.length := lt_of_lt_of_le (by norm_num) hL
    have hsq : v.length ^ 2 = v.x ^ 2 + v.y ^ 2 := Real.sq_sqrt (by positivity)
    have hne : v.length ≠ 0 := ne_of_gt hpos
    have key : (v.x / v.length) ^ 2 + (v.y / v.length) ^ 2 = 1 := by
      field_simp
      linarith [hsq]
    simp only [normalizeGuarded, if_neg h]
    show Real.sqrt ((v.x / v.length) ^ 2 + (v.y / v.length) ^ 2) = 1
    rw [key, Real.sqrt_one]
  · intro s sh t h
    by_cases hc : s.shapes.length ≥ 128
    · simp [ShapeSet.add, hc] at h
    · simp only [ShapeSet.add, dif_neg hc, Except.ok.injEq] at h
      rw [← h]

theorem lit_pi : (3.1415926535 : ℝ) = 31415926535 / 10 ^ 10 := by norm_num

theorem lit180 : (180.0 : ℝ) = 180 := by norm_num

theorem lit0 : (0.0 : ℝ) = 0 := by norm_num

theorem lit360 : (360.0 : ℝ) = 360 := by norm_num

theorem pixelAngle_mem (v : Vec2) : 0 ≤ pixelAngle v ∧ pixelAngle v < 360 := by
  have h1 : -Real.pi < atan2 v.y v.x := by
    unfold atan2
    exact Complex.neg_pi_lt_arg _
  have h2 : atan2 v.y v.x ≤ Real.pi := by
    unfold atan2
    exact Complex.arg_le_pi _
  have hπ₁ := Real.pi_gt_d6
  have hπ₂ := Real.pi_lt_d6
  simp only [pixelAngle, lit_pi, lit180, lit0, lit360]
  split_ifs with h
  · constructor <;> linarith
  · constructor
    · exact not_lt.mp h
    · linarith

theorem sector_spec_part (s : WindShape) (p : Vec2) (h2 : s.type = 2)
    (hd : (p - s.pos).length ≤ s.size.x) :
    shapeContains p s = true ↔
      sectorSpecContained (pixelAngle (p - s.pos)) s.rotation s.angleRange := by
  have h0 : s.type ≠ 0 := by rw [h2]; decide
  have h1 : s.type ≠ 1 := by rw [h2]; decide
  simp only [shapeContains, if_neg h0, if_neg h1, if_pos h2]
  simp only [isInSector, if_neg (not_lt.mpr hd)]
  unfold sectorSpecContained
  simp only [lit360]
  split_ifs with hend
  · simp [decide_eq_true_eq, ge_iff_le]
  · simp [decide_eq_true_eq, ge_iff_le]

theorem pt355_atan2 : atan2 pt355.y pt355.x = -(Real.pi / 36) := by
  have hmem : -(Real.pi / 36) ∈ Set.Ioc (-Real.pi) Real.pi := by
    constructor
    · have := Real.pi_pos; linarith
    · have := Real.pi_pos; linarith
  show Complex.arg ⟨pt355.x, pt355.y⟩ = -(Real.pi / 36)
  have hx : pt355.x = Real.cos (-(Real.pi / 36)) := rfl
  have hy : pt355.y = Real.sin (-(Real.pi / 36)) := rfl
  rw [hx, hy, Complex.mk_eq_add_mul_I, Complex.ofReal_cos, Complex.ofReal_sin]
  exact Complex.arg_cos_add_sin_mul_I hmem

theorem pt200_atan2 : atan2 pt200.y pt200.x = -(8 * Real.pi / 9) := by
  have hmem : -(8 * Real.pi / 9) ∈ Set.Ioc (-Real.pi) Real.pi := by
    constructor
    · have := Real.pi_pos; linarith
    · have := Real.pi_pos; linarith
  show Complex.arg ⟨pt200.x, pt200.y⟩ = -(8 * Real.pi / 9)
  have hx : pt200.x = Real.cos (-(8 * Real.pi / 9)) := rfl
  have hy : pt200.y = Real.sin (-(8 * Real.pi / 9)) := rfl
  rw [hx, hy, Complex.mk_eq_add_mul_I, Complex.ofReal_cos, Complex.ofReal_sin]
  exact Complex.arg_cos_add_sin_mul_I hmem

theorem pt355_delta : pt355 - sectorEx.pos = pt355 := by
  ext <;> simp [Vec2.sub_def, sectorEx]

theorem pt200_delta : pt200 - sectorEx.pos = pt200 := by
  ext <;> simp [Vec2.sub_def, sectorEx]

theorem pt355_within : (pt355 - sectorEx.pos).length ≤ sectorEx.size.x := by
  rw [pt355_delta]
  show Real.sqrt (Real.cos (-(Real.pi / 36)) ^ 2 + Real.sin (-(Real.pi / 36)) ^ 2) ≤ 1
  rw [Real.cos_sq_add_sin_sq, Real.sqrt_one]

theorem pt200_within : (pt200 - sectorEx.pos).length ≤ sectorEx.size.x := by
  rw [pt200_delta]
  show Real.sqrt (Real.cos (-(8 * Real.pi / 9)) ^ 2 + Real.sin (-(8 * Real.pi / 9)) ^ 2) ≤ 1
  rw [Real.cos_sq_add_sin_sq, Real.sqrt_one]

theorem pt355_pixelAngle : pixelAngle pt355 = -(Real.pi / 36) * 180.0 / 3.1415926535 + 360 := by
  have hneg : -(Real.pi / 36) * 180.0 / 3.1415926535 < 0 := by
    have := Real.pi_pos
    rw [lit180, lit_pi]
    linarith
  simp only [pixelAngle, pt355_atan2, lit0, lit360]
  rw [if_pos hneg]

theorem pt200_pixelAngle : pixelAngle pt200 = -(8 * Real.pi / 9) * 180.0 / 3.1415926535 + 360 := by
  have hneg : -(8 * Real.pi / 9) * 180.0 / 3.1415926535 < 0 := by
    have := Real.pi_pos
    rw [lit180, lit_pi]
    linarith
  simp only [pixelAngle, pt200_atan2, lit0, lit360]
  rw [if_pos hneg]

theorem sectorEx_wraps : sectorEx.rotation + sectorEx.angleRange > 360 := by
  norm_num [sectorEx]

theorem sector_contains_pt355 : shapeContains pt355 sectorEx = true := by
  rw [sector_spec_part sectorEx pt355 rfl pt355_within, pt355_delta]
  unfold sectorSpecContained
  rw [if_pos sectorEx_wraps]
  left
  rw [pt355_pixelAngle, show sectorEx.rotation = (350 : ℝ) from rfl]
  have hπ₂ := Real.pi_lt_d6
  rw [lit180, lit_pi]
  linarith

theorem sector_not_contains_pt200 : shapeContains pt200 sectorEx = false := by
  cases hb : shapeContains pt200 sectorEx with
  | false => rfl
  | true =>
    exfalso
    have hiff := sector_spec_part sectorEx pt200 rfl pt200_within
    rw [pt200_delta] at hiff
    have hcontained := hiff.mp hb
    unfold sectorSpecContained at hcontained
    rw [if_pos sectorEx_wraps, pt200_pixelAngle,
      show sectorEx.rotation = (350 : ℝ) from rfl,
      show sectorEx.angleRange = (20 : ℝ) from rfl, lit180, lit_pi] at hcontained
    have hπ₂ := Real.pi_lt_d6
    have hπ₁ := Real.pi_gt_d6
    rcases hcontained with h | h
    · linarith
    · linarith

/-- C3: within the radius, sector containment is decided on the normalized
angle `angle ∈ [0, 360)` by: with `end = rotation + angleRange`, if
`end > 360` (wraparound) then `angle ≥ rotation ∨ angle ≤ end - 360`, else
`rotation ≤ angle ≤ end` inclusive; in particular the sector with rotation
350° and range 20° contains the within-radius point at polar angle 355° and
not the one at polar angle 200°. -/
theorem sector_angle_wraparound :
    (∀ v : Vec2, 0 ≤ pixelAngle v ∧ pixelAngle v < 360) ∧
    (∀ (s : WindShape) (p : Vec2), s.type = 2 → (p - s.pos).length ≤ s.size.x →
        (shapeContains p s = true ↔
          sectorSpecContained (pixelAngle (p - s.pos)) s.rotation s.angleRange)) ∧
    shapeContains pt355 sectorEx = true ∧
    shapeContains pt200 sectorEx = false :=
  ⟨pixelAngle_mem, sector_spec_part, sector_contains_pt355, sector_not_contains_pt200⟩

theorem sector_angle_wraparound_witness :
    shapeContains pt355 sectorEx = true ↔
      sectorSpecContained (pixelAngle (pt355 - sectorEx.pos))
        sectorEx.rotation sectorEx.angleRange :=
  sector_angle_wraparound.2.1 sectorEx pt355 rfl pt355_within

/-- C9: an invocation whose cell coordinate lies outside
`[0, rtWidth) × [0, rtHeight)` (tile overhang of the fixed 16×16 work
groups; invocation ids are non-negative) returns without writing: the
output grid is left exactly as it was, at every cell. -/
theorem tile_overhang_no_write :
    ∀ (params : WindFieldParams) (grid : ℕ × ℕ → Vec4) (id : ℕ × ℕ),
      ¬ ((id.1 : ℤ) < params.rtWidth ∧ (id.2 : ℤ) < params.rtHeight) →
      shaderMain params grid id = grid := by
  intro params grid id h
  have h' : (id.1 : ℤ) ≥ params.rtWidth ∨ (id.2 : ℤ) ≥ params.rtHeight := by
    rcases not_and_or.mp h with h | h
    · exact Or.inl (not_lt.mp h)
    · exact Or.inr (not_lt.mp h)
  simp only [shaderMain]
  rw [if_pos h']

theorem tile_overhang_no_write_witness :
    shaderMain paramsEx (fun _ => ⟨1, 1, 1, 1⟩) (5, 0) = fun _ => ⟨1, 1, 1, 1⟩ :=
  tile_overhang_no_write paramsEx (fun _ => ⟨1, 1, 1, 1⟩) (5, 0)
    (by norm_num [paramsEx])

/-- C10: when `shapeCount` is zero (or negative) the accumulation loop runs
no iterations, so an in-bounds invocation writes exactly `(0,0)` with the
two reserved channels `0`, and no shape record is read: the result does not
depend on the contents of the shape array. -/
theorem zero_count_writes_zero :
    ∀ (params : WindFieldParams) (grid : ℕ × ℕ → Vec4) (id : ℕ × ℕ),
      params.shapeCount ≤ 0 →
      (id.1 : ℤ) < params.rtWidth → (id.2 : ℤ) < params.rtHeight →
      shaderMain params grid id id = ⟨0, 0, 0, 0⟩ ∧
      ∀ shapes' : ℕ → WindShape,
        shaderMain { params with shapes := shapes' } grid id = shaderMain params grid id := by
  intro params grid id hc hx hy
  have hcond : ¬ ((id.1 : ℤ) ≥ params.rtWidth ∨ (id.2 : ℤ) ≥ params.rtHeight) := by
    push_neg
    exact ⟨hx, hy⟩
  have hlist : shapeList params = [] := by
    simp [shapeList, Int.toNat_of_nonpos hc]
  have hlist' : ∀ shapes' : ℕ → WindShape,
      shapeList { params with shapes := shapes' } = [] := by
    intro shapes'
    simp [shapeList, Int.toNat_of_nonpos hc]
  constructor
  · simp only [shaderMain, if_neg hcond, hlist]
    simp [evaluate, Vec2.zero_def]
  · intro shapes'
    simp only [shaderMain, hlist, hlist' shapes']

theorem zero_count_writes_zero_witness :
    shaderMain paramsEx (fun _ => ⟨1, 1, 1, 1⟩) (1, 2) (1, 2) = ⟨0, 0, 0, 0⟩ :=
  (zero_count_writes_zero paramsEx (fun _ => ⟨1, 1, 1, 1⟩) (1, 2)
    (by norm_num [paramsEx]) (by norm_num [paramsEx]) (by norm_num [paramsEx])).1

theorem winddir_normalized_or_zero_witness :
    (normalizeGuarded ⟨3, 4⟩).length = 1 := by
  have h5 : (⟨3, 4⟩ : Vec2).length = 5 := by
    show Real.sqrt ((3 : ℝ) ^ 2 + 4 ^ 2) = 5
    rw [show ((3 : ℝ) ^ 2 + 4 ^ 2) = 5 ^ 2 by norm_num, Real.sqrt_sq (by norm_num)]
  exact winddir_normalized_or_zero.2.1 ⟨3, 4⟩ (by rw [h5]; norm_num)
